import Mathlib

/-!
Shallow embedding of the command-stream assembler in
src/src/panfrost/csf_test/interpret.py.

Python integers are unbounded, so machine words are modelled as `Int`
(they may be negative when a negative immediate is or-ed into a word,
exactly as in CPython).  Python's bitwise operators on negative
integers follow infinite two's complement; `pyAnd`/`pyOr`/`pyNot`
below implement that semantics.  Python `//` and `>>` are floor
division.  Python `dict` is modelled as an association list with
update-in-place semantics (an overwrite keeps the key's original
position, `del` removes it, re-insertion appends at the end), which
reproduces the iteration order used by serialization.  Fatal Python
exceptions (failed `assert`, missing dict key, bad list index,
unparsable int, use of a not-yet-executed local function binding,
`None` arithmetic) are modelled with `Except Err`.
-/

namespace CSF

inductive Err where
  | assertionError
  | keyError
  | indexError
  | nameError
  | typeError
  | valueError
  | external
  deriving DecidableEq, Repr

instance {ε α : Type} [DecidableEq ε] [DecidableEq α] :
    DecidableEq (Except ε α)
  | .ok a, .ok b =>
    if h : a = b then .isTrue (by rw [h]) else .isFalse (by simp [h])
  | .ok _, .error _ => .isFalse (by simp)
  | .error _, .ok _ => .isFalse (by simp)
  | .error e, .error f =>
    if h : e = f then .isTrue (by rw [h]) else .isFalse (by simp [h])

/-! ### Python integer semantics -/

/-- Python `~a` (infinite two's complement). -/
def pyNot (a : Int) : Int := -a - 1

/-- Python `a & b` on unbounded ints (infinite two's complement). -/
def pyAnd (a b : Int) : Int :=
  if 0 ≤ a then
    if 0 ≤ b then Int.ofNat (Nat.land a.toNat b.toNat)
    else Int.ofNat (a.toNat - Nat.land a.toNat (-b - 1).toNat)
  else
    if 0 ≤ b then Int.ofNat (b.toNat - Nat.land b.toNat (-a - 1).toNat)
    else -(Int.ofNat (Nat.lor (-a - 1).toNat (-b - 1).toNat)) - 1

/-- Python `a | b` on unbounded ints. -/
def pyOr (a b : Int) : Int := pyNot (pyAnd (pyNot a) (pyNot b))

/-- Python `a << n`. -/
def pyShl (a : Int) (n : Nat) : Int := a * ((2 : Int) ^ n)

/-- Python `a >> n` (arithmetic / floor shift). -/
def pyShr (a : Int) (n : Nat) : Int := Int.fdiv a ((2 : Int) ^ n)

/-! ### Python dict as an ordered association list -/

def dget {κ α : Type} [DecidableEq κ] : List (κ × α) → κ → Option α
  | [], _ => none
  | (k', v) :: rest, k => if k' = k then some v else dget rest k

/-- `d[k] = v`: overwrite in place, else append at the end. -/
def dinsert {κ α : Type} [DecidableEq κ] (k : κ) (v : α) :
    List (κ × α) → List (κ × α)
  | [] => [(k, v)]
  | (k', v') :: rest =>
    if k' = k then (k', v) :: rest else (k', v') :: dinsert k v rest

/-- `del d[k]`. -/
def ddel {κ α : Type} [DecidableEq κ] (k : κ) (d : List (κ × α)) :
    List (κ × α) :=
  d.filter (fun p => p.1 ≠ k)

/-! ### Python list indexing (negative indices wrap) -/

def pyListGet (xs : List Int) (i : Int) : Except Err Int :=
  let n : Int := xs.length
  let j := if i < 0 then i + n else i
  if 0 ≤ j ∧ j < n then
    .ok (xs.getD j.toNat 0)
  else .error .indexError

def pyListSet (xs : List Int) (i : Int) (v : Int) : Except Err (List Int) :=
  let n : Int := xs.length
  let j := if i < 0 then i + n else i
  if 0 ≤ j ∧ j < n then
    .ok (xs.set j.toNat v)
  else .error .indexError

/-! ### Character / token helpers (tokens are already lower-cased by the
line lexer, exactly as `interpret` lower-cases each input line). -/

def isDigitC (c : Char) : Bool := '0' ≤ c && c ≤ '9'

def isHexC (c : Char) : Bool := isDigitC c || ('a' ≤ c && c ≤ 'f')

def isBinC (c : Char) : Bool := c = '0' || c = '1'

def isOctC (c : Char) : Bool := '0' ≤ c && c ≤ '7'

def hexVal (c : Char) : Nat :=
  if isDigitC c then c.toNat - '0'.toNat else c.toNat - 'a'.toNat + 10

def digitsVal (base : Nat) : List Char → Nat → Nat
  | [], acc => acc
  | c :: cs, acc => digitsVal base cs (acc * base + hexVal c)

/-- digit-string value in `base` provided every char satisfies `ok`
and the string is non-empty. -/
def parseDigits (base : Nat) (ok : Char → Bool) (cs : List Char) : Option Nat :=
  if cs = [] then none
  else if cs.all ok then some (digitsVal base cs 0) else none

/-- split an optional single leading sign. -/
def splitSign : List Char → Int × List Char
  | '-' :: cs => (-1, cs)
  | '+' :: cs => (1, cs)
  | cs => (1, cs)

/-- Python `int(s, 16)`: optional sign, optional 0x prefix, hex digits.
(Input tokens are already lower-case; numeric-literal underscores are
not modelled.) -/
def pyIntHex (s : String) : Except Err Int :=
  let (sgn, cs) := splitSign s.data
  let cs := match cs with
    | '0' :: 'x' :: r => r
    | r => r
  match parseDigits 16 isHexC cs with
  | some n => .ok (sgn * n)
  | none => .error .valueError

/-- Python `int(s)` (base 10): optional sign, digits, leading zeros allowed. -/
def pyIntDec (s : String) : Except Err Int :=
  let (sgn, cs) := splitSign s.data
  match parseDigits 10 isDigitC cs with
  | some n => .ok (sgn * n)
  | none => .error .valueError

/-- Python `int(s, 0)`: optional sign; `0x`/`0o`/`0b` prefixes; plain
decimal forbids a leading zero unless the value is all zeros. -/
def pyIntBase0 (s : String) : Except Err Int :=
  let (sgn, cs) := splitSign s.data
  let core : Option Nat :=
    match cs with
    | '0' :: 'x' :: r => parseDigits 16 isHexC r
    | '0' :: 'b' :: r => parseDigits 2 isBinC r
    | '0' :: 'o' :: r => parseDigits 8 isOctC r
    | _ =>
      match parseDigits 10 isDigitC cs with
      | some n =>
        match cs with
        | '0' :: _ :: _ => if cs.all (fun c => c = '0') then some n else none
        | _ => some n
      | none => none
  match core with
  | some n => .ok (sgn * n)
  | none => .error .valueError

def tokEndsColon (t : String) : Bool :=
  match t.data.getLast? with
  | some c => c = ':'
  | none => false

def dropLastChar (t : String) : String := String.mk t.data.dropLast

/-- first character of a token; Python raises IndexError on `""[0]`. -/
def tokHead (t : String) : Except Err Char :=
  match t.data with
  | c :: _ => .ok c
  | [] => .error .indexError

def strDrop1 (t : String) : String := String.mk t.data.tail

def startsWithLit (p t : String) : Bool := t.data.take p.data.length = p.data

/-- `re.fullmatch(r"[0-9]+", t)` -/
def isNumStr (t : String) : Bool := t.data ≠ [] && t.data.all isDigitC

def parseDecNat (t : String) : Nat := digitsVal 10 t.data 0

/-- `re.fullmatch(r"[0-9]+" ++ suffix, t)` for a one-char suffix,
returning the numeric part. -/
def matchNumSuffix (suf : Char) (t : String) : Option Nat :=
  match t.data.getLast? with
  | some c =>
    if c = suf && t.data.dropLast ≠ [] && t.data.dropLast.all isDigitC then
      some (digitsVal 10 t.data.dropLast 0)
    else none
  | none => none

/-- ASCII lower-casing (`str.lower`; shader names are ASCII). -/
def charLower (c : Char) : Char :=
  if 'A' ≤ c && c ≤ 'Z' then Char.ofNat (c.toNat + 32) else c

def strLower (s : String) : String := String.mk (s.data.map charLower)

def splitCharAux (c : Char) : List Char → List Char → List String
  | [], acc => [String.mk acc.reverse]
  | d :: ds, acc =>
    if d = c then String.mk acc.reverse :: splitCharAux c ds []
    else splitCharAux c ds (d :: acc)

/-- Python `s.split(c)` for a single-char separator. -/
def splitChar (c : Char) (s : String) : List String := splitCharAux c s.data []

/-- Python `s.strip("#")`. -/
def stripHash (s : String) : String :=
  String.mk (((s.data.dropWhile (fun c => c = '#')).reverse.dropWhile
    (fun c => c = '#')).reverse)

/-! ### Core numeric helpers from the source -/

/-- `def resolve_rel(to, branch): return (to - branch) // 8 - 1` -/
def resolve_rel (tgt branch : Int) : Int := Int.fdiv (tgt - branch) 8 - 1

/-- `def to_int16(value): assert(value < 36768); assert(value >= -32768);
return value & 0xffff`  (the first bound is written 36768 in the source). -/
def to_int16 (value : Int) : Except Err Int :=
  if value < 36768 then
    if -32768 ≤ value then .ok (pyAnd value 0xffff)
    else .error .assertionError
  else .error .assertionError

/-! ### Data model -/

/-- a key of a pending relocation entry: the label of a
`label_refs`/`num_refs` triple (its "rel" type tag is the same at
every creation site and is dropped here). -/
inductive RefKey where
  | sym (s : String)
  | num (n : Nat)
  deriving DecidableEq, Repr

/-- `class Level(Buffer)`.  `id` is the value taken from the global
`Buffer.id` counter at construction. -/
structure Level where
  id : Nat
  indent : Nat
  buffer : List Int := []
  call_addr_offset : Option Int := none
  call_len_offset : Option Int := none
  labels : List (String × Nat) := []
  label_refs : List (RefKey × Nat) := []
  num_labels : List (Nat × Nat) := []
  num_refs : List (Nat × List (RefKey × Nat)) := []
  deriving DecidableEq, Repr

/-- `def offset(self): return len(self.buffer) * 8` -/
def Level.offset (l : Level) : Nat := l.buffer.length * 8

/-- `def buffer_add_value(self, offset, value): self.buffer[offset // 8] += value` -/
def Level.buffer_add_value (l : Level) (ofs : Nat) (v : Int) :
    Except Err Level := do
  let old ← pyListGet l.buffer (ofs / 8 : Nat)
  let buf ← pyListSet l.buffer (ofs / 8 : Nat) (old + v)
  .ok { l with buffer := buf }

/-- `def process_relocs(self, refs, to=None)` -/
def Level.process_relocs (l : Level) :
    List (RefKey × Nat) → Option Nat → Except Err Level
  | [], _ => .ok l
  | (ref, ofs) :: rest, tgt => do
    let goto ← match tgt with
      | some g => Except.ok g
      | none =>
        match ref with
        | .sym s =>
          match dget l.labels s with
          | some g => Except.ok g
          | none => Except.error Err.keyError
        | .num _ => Except.error Err.keyError
    let v ← to_int16 (resolve_rel (goto : Int) (ofs : Int))
    let l' ← l.buffer_add_value ofs v
    l'.process_relocs rest tgt

/-- `def finish(self): self.process_relocs(self.label_refs)` -/
def Level.finish (l : Level) : Except Err Level :=
  l.process_relocs l.label_refs none

/-- `class Alloc(Buffer)` (default flags 0x280f). -/
structure Alloc where
  id : Nat
  size : Int
  flags : Int := 0x280f
  buffer : List Int := []
  deriving DecidableEq, Repr

/-- a `self.reloc` / `self.reloc_split` tuple, with the field names used
by `fmt_reloc`. -/
structure Reloc where
  dst : Nat
  offset : Int
  src : Nat
  src_offset : Int
  deriving DecidableEq, Repr

/-- an element of an execution-script entry (Python mixes strings and
ints in the `self.exe` lists). -/
inductive PyVal where
  | s (v : String)
  | i (v : Int)
  deriving DecidableEq, Repr

/-- the non-fatal messages the interpreter prints while continuing. -/
inductive Diag where
  | unknownCommand (toks : List String)
  | mismatch (code given : Int)
  | labelReuse (label : String)
  | multiExe
  deriving DecidableEq, Repr

/-- `class Context`.  `nextId` models the class-level counter
`Buffer.id`, which in the source is global mutable state that is
never reset; `levels` stores the scope stack with its HEAD as the top
(Python `self.levels[-1]`), and `self.l` is modelled as that head. -/
structure Context where
  nextId : Nat
  levels : List Level := []
  allocs : List (String × Alloc) := []
  completed : List Level := []
  reloc : List Reloc := []
  reloc_split : List Reloc := []
  exe : List (List PyVal) := []
  last_exe : Option Nat := none
  is_call : Bool := false
  diags : List Diag := []
  deriving DecidableEq, Repr

def Context.new (nextId : Nat) : Context := { nextId := nextId }

/-- `self.l` (the head of the stack; empty stack is modelled as a fatal
access, see the comment on `popUntilF`). -/
def Context.curL (ctx : Context) : Except Err Level :=
  match ctx.levels with
  | l :: _ => .ok l
  | [] => .error .indexError

def Context.setL (ctx : Context) (l : Level) : Context :=
  { ctx with levels := match ctx.levels with
      | [] => [l]
      | _ :: rest => l :: rest }

def Context.pushLevel (ctx : Context) (indent : Nat) : Context :=
  { ctx with
    levels := ({ id := ctx.nextId, indent := indent } : Level) :: ctx.levels
    nextId := ctx.nextId + 1 }

def Context.addDiag (ctx : Context) (d : Diag) : Context :=
  { ctx with diags := ctx.diags ++ [d] }

/-! ### Registry population -/

/-- `def add_shaders(self, shaders)`.  The shader ISA encoder
(`asm.parse_asm`, an external collaborator per the spec) maps each
shader's text to 64-bit words; its output words are this function's
input. -/
def add_shaders (ctx : Context) : List (String × List Int) → Context
  | [] => ctx
  | (sh, qwords) :: rest =>
    let a : Alloc :=
      { id := ctx.nextId, size := ((qwords.length * 8 : Nat) : Int),
        flags := 0x2017, buffer := qwords }
    add_shaders
      { ctx with
        nextId := ctx.nextId + 1
        allocs := dinsert (strLower sh) a ctx.allocs } rest

/-- a `memory` table entry: a bare size or a (size, flags) pair. -/
inductive MemIn where
  | bare (size : Int)
  | sized (size flags : Int)
  deriving DecidableEq, Repr

/-- `def add_memory(self, memory)` -/
def add_memory (ctx : Context) : List (String × MemIn) → Context
  | [] => ctx
  | (m, f) :: rest =>
    let sf : Int × Int := match f with
      | .bare s => (s, 0x280f)
      | .sized s fl => (s, fl)
    let a : Alloc := { id := ctx.nextId, size := sf.1, flags := sf.2 }
    add_memory
      { ctx with
        nextId := ctx.nextId + 1
        allocs := dinsert m a ctx.allocs } rest

/-- a `descriptors` table entry: a literal 32-bit word (Python int), a
buffer name (Python str), or a (buffer name, offset) pair. -/
inductive DescW where
  | lit (w : Int)
  | nameRef (s : String)
  | offRef (s : String) (o : Int)
  deriving DecidableEq, Repr

/-- the per-word loop of `add_descriptors`: literals append one 32-bit
entry; references record a relocation at byte offset `len(buf) * 4`
and append two zero entries. -/
def descLoop (ctx : Context) (aId : Nat) (buf : List Int) :
    List DescW → Except Err (Context × List Int)
  | [] => .ok (ctx, buf)
  | .lit w :: ws => descLoop ctx aId (buf ++ [w]) ws
  | .nameRef s :: ws =>
    match dget ctx.allocs s with
    | none => .error .keyError
    | some refA =>
      descLoop
        { ctx with reloc := ctx.reloc ++
            [⟨aId, ((buf.length * 4 : Nat) : Int), refA.id, 0⟩] }
        aId (buf ++ [0, 0]) ws
  | .offRef s o :: ws =>
    match dget ctx.allocs s with
    | none => .error .keyError
    | some refA =>
      descLoop
        { ctx with reloc := ctx.reloc ++
            [⟨aId, ((buf.length * 4 : Nat) : Int), refA.id, o⟩] }
        aId (buf ++ [0, 0]) ws

/-- `[x | (y << 32) for x, y in zip(it, it)]`: pack pairs of 32-bit
entries into 64-bit words; `zip` silently drops an unpaired final
entry. -/
def pyPairPack : List Int → List Int
  | x :: y :: rest => pyOr x (pyShl y 32) :: pyPairPack rest
  | _ => []

/-- `def add_descriptors(self, descriptors)` -/
def add_descriptors (ctx : Context) :
    List (String × List DescW) → Except Err Context
  | [] => .ok ctx
  | (d, words) :: rest => do
    let aId := ctx.nextId
    let ctx := { ctx with nextId := ctx.nextId + 1 }
    let (ctx, buf) ← descLoop ctx aId [] words
    let a : Alloc :=
      { id := aId, size := (((pyPairPack buf).length * 8 : Nat) : Int),
        buffer := pyPairPack buf }
    add_descriptors { ctx with allocs := dinsert d a ctx.allocs } rest

/-- number of 32-bit entries a descriptor word list expands to
(literals one each, references two each). -/
def desc32count : List DescW → Nat
  | [] => 0
  | .lit _ :: r => 1 + desc32count r
  | .nameRef _ :: r => 2 + desc32count r
  | .offRef _ _ :: r => 2 + desc32count r

/-! ### Operand helpers of `Context.interpret` -/

/-- `def hx(word): return int(word, 16)` -/
def hx (w : String) : Except Err Int := pyIntHex w

/-- `def reg(word): return hx(word[1:])` -/
def reg (w : String) : Except Err Int := pyIntHex (strDrop1 w)

/-- the plain-integer tail of `val`:
`value = int(word.strip("#"), 0); assert(value < (1 << 48))`. -/
def valPlain (w : String) : Except Err Int := do
  let v ← pyIntBase0 (stripHash w)
  if v < pyShl 1 48 then .ok v else .error .assertionError

/-- `def val(word)`.  The `float:` form converts an IEEE-754 float to
its bit pattern via `struct.pack` (external, not modelled).  The inner
values of the `i16:` form contain no colon and therefore take the
plain-integer path of the recursive `val` call. -/
def val (w : String) : Except Err Int :=
  if startsWithLit "float:" w then .error .external
  else if startsWithLit "i16:" w then
    let seg := (splitChar ':' w).getD 1 ""
    match splitChar ',' seg with
    | [lo, hi] => do
      let lo ← valPlain lo
      let hi ← valPlain hi
      if lo < pyShl 1 16 then
        if hi < pyShl 1 16 then .ok (pyOr (pyAnd lo 0xffff) (pyShl hi 16))
        else .error .assertionError
      else .error .assertionError
    | _ => .error .valueError
  else valPlain w

/-- one already-lexed input line of `Context.interpret`: the lexing at
the top of the loop (comment stripping at `@`, tab expansion,
lower-casing, blank-line skipping, indent measurement, the
16-hex-digit-plus-space expected-word prefix, whitespace splitting and
comma stripping) is modelled by presenting its result: `given` is the
parsed expected-word prefix when present (`int(line[:16], 16)`). -/
structure SrcLine where
  indent : Nat
  given : Option Nat := none
  toks : List String
  deriving DecidableEq, Repr

/-! ### Scope popping and flushing -/

/-- `def pop_until(self, indent)` as a fuel-indexed loop; the caller
passes fuel `levels.length`, enough because each iteration pops one
level.  Inside the loop the source appends the popped level to
`completed` FIRST, returns when the stack empties, and otherwise
patches the parent: a relocation from the parent's callee-id word to
the child at offset 0, the child's byte length into the low bits of
the parent's length word, and the callee-id word's low bits cleared.
Multiplying or indexing with a `None` bookkeeping offset is a Python
TypeError.  Entering with an empty stack is modelled as the fatal
index access that the source ultimately hits in that state (there,
`self.l` is a stale reference and the final `pop_until` of `interpret`
dies on `self.levels[0]`). -/
def popUntilF (indent : Nat) : Nat → Context → Except Err Context
  | 0, ctx =>
    match ctx.levels with
    | [] => .error .indexError
    | l :: _ => if l.indent = indent then .ok ctx else .error .indexError
  | fuel + 1, ctx =>
    match ctx.levels with
    | [] => .error .indexError
    | l :: rest =>
      if l.indent = indent then .ok ctx
      else
        let ctx1 :=
          { ctx with levels := rest, completed := ctx.completed ++ [l] }
        match rest with
        | [] => .ok ctx1
        | r :: rest' => do
          let buf_len : Nat := l.offset
          let a ← match r.call_addr_offset with
            | some a => Except.ok a
            | none => Except.error Err.typeError
          let b ← match r.call_len_offset with
            | some b => Except.ok b
            | none => Except.error Err.typeError
          let old_len ← pyListGet r.buffer b
          let buf1 ← pyListSet r.buffer b
            (pyAnd old_len (pyShl 0xffff 48) + buf_len)
          let old_addr ← pyListGet buf1 a
          let buf2 ← pyListSet buf1 a (pyAnd old_addr (pyShl 0xffff 48))
          let r' := { r with
            buffer := buf2
            call_addr_offset := none
            call_len_offset := none }
          popUntilF indent fuel
            { ctx1 with
              levels := r' :: rest'
              reloc := ctx1.reloc ++ [⟨r.id, a * 8, l.id, 0⟩] }

def popUntil (ctx : Context) (indent : Nat) : Except Err Context :=
  popUntilF indent ctx.levels.length ctx

/-- `def flush_exe(self)` -/
def flush_exe (ctx : Context) : Except Err Context := do
  let ind ← match ctx.levels.getLast? with
    | some l0 => Except.ok l0.indent
    | none => Except.error Err.indexError
  let ctx ← popUntil ctx ind
  let bot ← match ctx.levels.getLast? with
    | some l0 => Except.ok l0
    | none => Except.error Err.indexError
  let ctx ←
    if bot.buffer ≠ [] then
      match ctx.levels with
      | [] => Except.error Err.indexError
      | l :: rest => do
        let l' ← l.finish
        Except.ok { ctx with
          levels := ({ id := ctx.nextId, indent := ind } : Level) :: rest
          nextId := ctx.nextId + 1
          completed := ctx.completed ++ [l'] }
    else Except.ok ctx
  if ctx.exe = [] then .ok ctx
  else
    match ctx.last_exe with
    | none => .ok (ctx.addDiag .multiExe)
    | some le => do
      let ctx ←
        if ctx.completed ≠ [] then
          match ctx.completed.getLast? with
          | some p =>
            if p.indent = ind then
              match ctx.exe.get? le with
              | some entry =>
                let entry2 := entry ++ [.i (p.id : Int), .i (p.offset : Int)]
                Except.ok { ctx with exe := ctx.exe.set le entry2 }
              | none => Except.error Err.indexError
            else Except.error Err.assertionError
          | none => Except.error Err.indexError
        else Except.ok ctx
      .ok { ctx with last_exe := none }

/-! ### Pieces of the dispatch -/

/-- one iteration of the call-site scan `for ofs in range(cur - 2, cur)`
(negative Python indices wrap). -/
def callScanStep (l : Level) (target num : Int) (ofs : Int) :
    Except Err Level := do
  let w ← pyListGet l.buffer ofs
  let l := if pyShr w 48 = 0x100 + target then
      { l with call_addr_offset := some ofs } else l
  let l := if pyShr w 48 = 0x200 + num then
      { l with call_len_offset := some ofs } else l
  .ok l

/-- the call/tailcall bookkeeping check (lines 1690-1697): scan the two
words before the call, then assert both offsets are set (they may
still hold stale values from an earlier call). -/
def callScan (l : Level) (target num : Int) : Except Err Level := do
  let cur : Int := l.buffer.length
  let l ← callScanStep l target num (cur - 2)
  let l ← callScanStep l target num (cur - 1)
  if l.call_addr_offset = none then .error .assertionError
  else if l.call_len_offset = none then .error .assertionError
  else .ok l

/-- branch-target resolution of the `b` family (lines 1619-1634):
`Nb` must be bound now and resolves immediately; `Nf` enqueues into
the per-number pending list; a plain numeric label is rejected; a
symbolic label always enqueues a pending reference (resolved at
`finish`). -/
def branchLabel (l : Level) (label : String) : Except Err (Level × Int) :=
  match matchNumSuffix 'b' label with
  | some n =>
    match dget l.num_labels n with
    | some g => .ok (l, resolve_rel (g : Int) (l.offset : Int))
    | none => .error .assertionError
  | none =>
    match matchNumSuffix 'f' label with
    | some n =>
      let refs := (dget l.num_refs n).getD []
      .ok ({ l with num_refs :=
              dinsert n (refs ++ [(.num n, l.offset)]) l.num_refs }, 0)
    | none =>
      if isNumStr label then .error .assertionError
      else .ok ({ l with label_refs :=
                    l.label_refs ++ [(.sym label, l.offset)] }, 0)

/-- the numeric-label definition block (lines 1240-1245): resolve and
clear pending forward references at the current offset, then (re)bind
the number. -/
def numLabelDef (l : Level) (n : Nat) : Except Err Level := do
  let l ←
    match dget l.num_refs n with
    | some refs => do
      let l' ← l.process_relocs refs (some l.offset)
      Except.ok { l' with num_refs := ddel n l'.num_refs }
    | none => Except.ok l
  .ok { l with num_labels := dinsert n l.offset l.num_labels }

/-- target-buffer lookup of a `$` operand: `$.` is the current level,
anything else is `self.allocs[name]` (KeyError when absent). -/
def substBufId (ctx : Context) (nm : String) : Except Err Nat :=
  if nm = "." then do
    let l ← ctx.curL
    Except.ok l.id
  else
    match dget ctx.allocs nm with
    | some a => Except.ok a.id
    | none => Except.error Err.keyError

/-- sub-offset of a `$` operand: none, `int(offset[0], 0)`, or a fatal
arity assert. -/
def substOff : List String → Except Err Int
  | [] => .ok 0
  | [o] => pyIntBase0 o
  | _ => .error .assertionError

/-- one token of the `$`-operand substitution loop (lines 1255-1275):
a `$name` / `$name+off` / `$.` token records a relocation sourced at
the current level offset (into `reloc_split` when `s[0]` is "movp" at
the moment of the check, else `reloc`) and is replaced by `"#0x0"`. -/
def substTok (ctx : Context) (isMovp : Bool) (t : String) :
    Except Err (Context × String) :=
  if startsWithLit "$" t then do
    let parts := splitChar '+' (strDrop1 t)
    let buf_id ← substBufId ctx (parts.getD 0 "")
    let off ← substOff parts.tail
    let l ← ctx.curL
    let entry : Reloc := ⟨l.id, (l.offset : Int), buf_id, off⟩
    let ctx :=
      if isMovp then { ctx with reloc_split := ctx.reloc_split ++ [entry] }
      else { ctx with reloc := ctx.reloc ++ [entry] }
    .ok (ctx, "#0x0")
  else .ok (ctx, t)

def substRest (ctx : Context) (head : String) :
    List String → Except Err (Context × List String)
  | [] => .ok (ctx, [])
  | t :: ts => do
    let (ctx, t') ← substTok ctx (head = "movp") t
    let (ctx, ts') ← substRest ctx head ts
    .ok (ctx, t' :: ts')

/-- the whole substitution loop.  For index 0 the `s[0] == "movp"`
check still sees the original token (it is replaced only at the end of
that iteration); later indices see the possibly substituted `s[0]`. -/
def substAll (ctx : Context) : List String → Except Err (Context × List String)
  | [] => .ok (ctx, [])
  | t0 :: rest => do
    let (ctx, t0') ← substTok ctx (t0 = "movp") t0
    let (ctx, rest') ← substRest ctx t0' rest
    .ok (ctx, t0' :: rest')

/-- `code = (cmd << 56) | (addr << 48) | value` (line 1729). -/
def mkCode (cmd addr value : Int) : Int :=
  pyOr (pyOr (pyShl cmd 56) (pyShl addr 48)) value

/-- the common tail of an instruction line (lines 1729-1736): build the
word, compare against a truthy expected-word prefix (`if given_code
and code != given_code` — an all-zero prefix is falsy and skipped)
reporting any difference non-fatally, and always append the computed
word. -/
def emitCode (ctx : Context) (given : Option Nat) (cmd addr value : Int) :
    Except Err Context := do
  let code := mkCode cmd addr value
  let ctx := match given with
    | some g =>
      if g ≠ 0 ∧ code ≠ (g : Int) then ctx.addDiag (.mismatch code (g : Int))
      else ctx
    | none => ctx
  let l ← ctx.curL
  .ok (ctx.setL { l with buffer := l.buffer ++ [code] })

def tokAt (s : List String) (i : Nat) : Except Err String :=
  match s.get? i with
  | some t => .ok t
  | none => .error .indexError

/-- the `ops` table of the branch family. -/
def bOps : List (String × Int) :=
  [("b.le", 0), ("b.gt", 1), ("b.eq", 2), ("b.ne", 3),
   ("b.lt", 4), ("b.ge", 5), ("b", 6), ("b.al", 6)]

def waitSum (acc : Int) : List String → Except Err Int
  | [] => .ok acc
  | t :: ts => do
    let n ← pyIntDec t
    if n < 0 then Except.error Err.valueError
    else waitSum (acc + pyShl 1 n.toNat) ts

def resourcesFold (acc : Int) : List String → Except Err Int
  | [] => .ok acc
  | t :: ts => do
    let v ←
      if t = "compute" then Except.ok (1 : Int)
      else if t = "fragment" then Except.ok (2 : Int)
      else if t = "tiler" then Except.ok (4 : Int)
      else if t = "idvs" then Except.ok (8 : Int)
      else pyIntBase0 t
    resourcesFold (pyOr acc v) ts

/-- result of dispatching one instruction line: either a
(cmd, addr, value) triple that falls through to the common append, or
a state already finished by a `continue`-style branch. -/
inductive DispatchR where
  | instr (ctx : Context) (cmd addr value : Int)
  | done (ctx : Context)

/-- the mnemonic dispatch chain of `Context.interpret` (lines
1300-1727), in source order.  The mnemonics fragment, idvs, str, ldr
(including the cycles/timestamp form), evadd, evstr and evwait are not
modelled and fall to the unknown-command branch here; in the source
each of them also emits exactly one word, so buffer offsets are
unaffected, and no theorem below evaluates a program containing them.
The second `add` branch of the source (line 1475) is unreachable (the
first one matches every `add`) and is not modelled. -/
def dispatch (ctx : Context) (s : List String) : Except Err DispatchR := do
  let t0 := s.headD ""
  if t0 = "!cs" then
    if s.length = 2 then do
      let ctx ← flush_exe ctx
      let n ← pyIntDec (s.getD 1 "")
      .ok (.done { ctx with
        last_exe := some ctx.exe.length
        exe := ctx.exe ++ [[.s "exe", .i n]] })
    else .error .assertionError
  else if t0 = "!parallel" then
    if s.length = 2 then do
      let ctx ← flush_exe ctx
      match ctx.exe.getLast? with
      | some lastE => do
        let n ← pyIntDec (s.getD 1 "")
        .ok (.done { ctx with
          last_exe := some (ctx.exe.length - 1)
          exe := ctx.exe.dropLast ++ [lastE ++ [.i n]] })
      | none => .error .indexError
    else .error .assertionError
  else if t0 = "!alloc" then
    if s.length = 3 ∨ s.length = 4 then do
      let size ← pyIntDec (s.getD 2 "")
      let flags ← if s.length = 4 then val (s.getD 3 "")
        else Except.ok (0x280f : Int)
      let a : Alloc := { id := ctx.nextId, size := size, flags := flags }
      .ok (.done { ctx with
        nextId := ctx.nextId + 1
        allocs := dinsert (s.getD 1 "") a ctx.allocs })
    else .error .assertionError
  else if t0 = "!dump" ∨ t0 = "!dump64" ∨ t0 = "!fdump" ∨ t0 = "!delta" ∨
      t0 = "!tiler" then
    if s.length = 4 then do
      let offv ← val (s.getD 2 "")
      let sizev ← val (s.getD 3 "")
      let mode := if t0 = "!dump" then "hex" else if t0 = "!dump64" then "hex64"
        else if t0 = "!fdump" then "filehex"
        else if t0 = "!delta" then "delta" else "tiler"
      match dget ctx.allocs (s.getD 1 "") with
      | some a => .ok (.done { ctx with exe := ctx.exe ++
          [[.s "dump", .i (a.id : Int), .i offv, .i sizev, .s mode]] })
      | none => .error .keyError
    else .error .assertionError
  else if t0 = "!heatmap" then
    if s.length = 10 ∧ s.getD 4 "" = "gran" ∧ s.getD 6 "" = "len" ∧
        s.getD 8 "" = "stride" then do
      let offv ← val (s.getD 2 "")
      let sizev ← val (s.getD 3 "")
      let gran ← val (s.getD 5 "")
      let length ← val (s.getD 7 "")
      let stride ← val (s.getD 9 "")
      match dget ctx.allocs (s.getD 1 "") with
      | some a => .ok (.done { ctx with exe := ctx.exe ++
          [[.s "heatmap", .i (a.id : Int), .i offv, .i sizev, .i gran,
            .i length, .i stride]] })
      | none => .error .keyError
    else .error .assertionError
  else if t0 = "!memset" then
    if s.length = 5 then do
      let offv ← val (s.getD 2 "")
      let v ← val (s.getD 3 "")
      let sizev ← val (s.getD 4 "")
      match dget ctx.allocs (s.getD 1 "") with
      | some a => .ok (.done { ctx with exe := ctx.exe ++
          [[.s "memset", .i (a.id : Int), .i offv, .i v, .i sizev]] })
      | none => .error .keyError
    else .error .assertionError
  else if t0 = "!raw" then
    .ok (.done { ctx with exe := ctx.exe ++ [s.tail.map PyVal.s] })
  else if t0 = "movp" then
    if s.length = 3 then do
      let c1 ← tokHead (s.getD 1 "")
      if c1 = 'x' then do
        let addr ← reg (s.getD 1 "")
        let value ← pyIntBase0 (stripHash (s.getD 2 ""))
        let w1 := pyOr (pyOr (pyShl 2 56) (pyShl addr 48))
          (pyAnd value 0xffffffff)
        let w2 := pyOr (pyOr (pyShl 2 56) (pyShl (addr + 1) 48))
          (pyAnd (pyShr value 32) 0xffffffff)
        let l ← ctx.curL
        .ok (.done (ctx.setL { l with buffer := l.buffer ++ [w1, w2] }))
      else .error .assertionError
    else .error .assertionError
  else if t0 = "regdump" then
    if s.length = 2 then do
      let c1 ← tokHead (s.getD 1 "")
      if c1 = 'x' then do
        let dest ← reg (s.getD 1 "")
        let value := pyOr (pyShl dest 40) (pyShl (pyShl 1 16 - 1) 16)
        let mkw := fun (i : Int) =>
          pyOr (pyOr (pyOr (pyShl 21 56) (pyShl i 48)) value) (pyShl i 2)
        let l ← ctx.curL
        .ok (.done (ctx.setL { l with buffer := l.buffer ++
          [mkw 0, mkw 16, mkw 32, mkw 48, mkw 64, mkw 80] }))
      else .error .assertionError
    else .error .assertionError
  else if t0 = "unk" then
    if s.length = 2 then do
      let h ← hx (s.getD 1 "")
      .ok (.instr ctx (pyShr h 56) (pyAnd (pyShr h 48) 0xff)
        (pyAnd h 0xffffffffffff))
    else if s.length = 4 then do
      let cmd ← hx (s.getD 2 "")
      let addr ← hx (s.getD 1 "")
      let value ← val (s.getD 3 "")
      .ok (.instr ctx cmd addr value)
    else .error .assertionError
  else if t0 = "nop" then
    if s.length = 1 then .ok (.instr ctx 0 0 0)
    else if s.length = 3 then do
      let addr ← hx (s.getD 1 "")
      let value ← val (s.getD 2 "")
      .ok (.instr ctx 0 addr value)
    else .error .assertionError
  else if t0 = "mov" then do
    let c2 ← tokHead (← tokAt s 2)
    if c2 = 'x' ∨ c2 = 'w' then
      if s.length = 3 then do
        let c1 ← tokHead (s.getD 1 "")
        if c1 = c2 then do
          let cmd ← match c1 with
            | 'x' => Except.ok (17 : Int)
            | 'w' => Except.ok (16 : Int)
            | _ => Except.error Err.keyError
          let addr ← reg (s.getD 1 "")
          let value ← reg (s.getD 2 "")
          .ok (.instr ctx cmd addr (pyShl value 40))
        else .error .assertionError
      else .error .assertionError
    else
      if s.length = 3 then do
        let c1 ← tokHead (s.getD 1 "")
        let cmd ← match c1 with
          | 'x' => Except.ok (1 : Int)
          | 'w' => Except.ok (2 : Int)
          | _ => Except.error Err.keyError
        let addr ← reg (s.getD 1 "")
        let value ← val (s.getD 2 "")
        .ok (.instr ctx cmd addr value)
      else .error .assertionError
  else if t0 = "add" then
    if s.length = 4 then do
      let c1 ← tokHead (← tokAt s 1)
      let c2 ← tokHead (← tokAt s 2)
      if c1 = c2 then
        if c1 = 'w' ∨ c1 = 'x' then do
          let cmd : Int := if c1 = 'w' then 16 else 17
          let addr ← reg (s.getD 1 "")
          let r2 ← reg (s.getD 2 "")
          let v ← val (s.getD 3 "")
          .ok (.instr ctx cmd addr (pyOr (pyShl r2 40) (pyAnd v 0xffffffff)))
        else .error .assertionError
      else .error .assertionError
    else .error .assertionError
  else if t0 = "resources" then
    if 2 ≤ s.length then do
      let value ← resourcesFold 0 s.tail
      .ok (.instr ctx 34 0 value)
    else .error .assertionError
  else if t0 = "wait" then
    if s.length = 2 then do
      let value ←
        if s.getD 1 "" = "all" then Except.ok (255 : Int)
        else waitSum 0 (splitChar ',' (s.getD 1 ""))
      .ok (.instr ctx 3 0 (pyShl value 16))
    else .error .assertionError
  else if t0 = "slot" then
    if s.length = 2 then do
      let value ← pyIntBase0 (s.getD 1 "")
      .ok (.instr ctx 23 0 value)
    else .error .assertionError
  else if t0 = "flush_tiler" then
    if s.length = 1 then .ok (.instr ctx 9 0 0) else .error .assertionError
  else if t0 = "b" ∨ startsWithLit "b." t0 then do
    let s :=
      if t0 = "b" ∧ (s.length = 2 ∨ (s.length = 3 ∧
          (s.getD 1 "" = "back" ∨ s.getD 1 "" = "skip"))) then
        t0 :: "w00" :: s.tail
      else s
    if s.length = 3 ∨ (s.length = 4 ∧
        (s.getD 2 "" = "back" ∨ s.getD 2 "" = "skip")) then do
      let c1 ← tokHead (← tokAt s 1)
      if c1 = 'w' then do
        let src ← reg (s.getD 1 "")
        let r ←
          if s.length = 4 then do
            let o ← val (s.getD 3 "")
            Except.ok (ctx, if s.getD 2 "" = "back" then -1 - o else o)
          else do
            let l ← ctx.curL
            let lo ← branchLabel l (s.getD 2 "")
            Except.ok (ctx.setL lo.1, lo.2)
        let ctx := r.1
        let op ← match dget bOps t0 with
          | some o => Except.ok o
          | none => Except.error Err.keyError
        let v16 ← to_int16 r.2
        .ok (.instr ctx 22 0 (pyOr (pyOr (pyShl src 40) (pyShl op 28)) v16))
      else .error .assertionError
    else .error .assertionError
  else if t0 = "call" ∨ t0 = "tailcall" then do
    let ss := s.filter (fun x => ¬ x.data.contains '(' ∧ ¬ x.data.contains ')')
    if ss.length = 3 then do
      let c1 ← tokHead (ss.getD 1 "")
      if c1 = 'w' then do
        let c2 ← tokHead (ss.getD 2 "")
        if c2 = 'x' then do
          let cmd : Int := if t0 = "call" then 32 else 33
          let num ← reg (ss.getD 1 "")
          let target ← reg (ss.getD 2 "")
          let value := pyOr (pyShl num 32) (pyShl target 40)
          let l ← ctx.curL
          let l ← callScan l target num
          .ok (.instr { (ctx.setL l) with is_call := true } cmd 0 value)
        else .error .assertionError
      else .error .assertionError
    else .error .assertionError
  else if t0 = "heapctx" then
    if s.length = 2 then do
      let c1 ← tokHead (s.getD 1 "")
      if c1 = 'x' then do
        let r1 ← reg (s.getD 1 "")
        .ok (.instr ctx 48 0 (pyShl r1 40))
      else .error .assertionError
    else .error .assertionError
  else if t0 = "heapinc" then
    if s.length = 2 then do
      let mode ←
        if s.getD 1 "" = "vt_start" then Except.ok (0 : Int)
        else if s.getD 1 "" = "vt_end" then Except.ok (1 : Int)
        else if s.getD 1 "" = "frag_end" then Except.ok (3 : Int)
        else pyIntDec (s.getD 1 "")
      .ok (.instr ctx 49 0 (pyShl mode 32))
    else .error .assertionError
  else
    .ok (.instr (ctx.addDiag (.unknownCommand s)) 0 0 0)

/-! ### Per-line processing -/

/-- the part of the line loop after indent handling: the label block
(lines 1235-1253), the `$`-substitution (1255-1275), the loop-local
helper defs (1277-1298) and the dispatch plus common append.  The
local `is_num` is referenced on lines 1235/1240 but defined only at
line 1277, so until some line has executed past the substitution the
name is unbound and its use raises NameError; `defsSeen` tracks that.
Returns the updated context and `defsSeen` flag. -/
def processToks (ctx : Context) (defsSeen : Bool) (given : Option Nat)
    (s : List String) : Except Err (Context × Bool) := do
  match s with
  | [] => .error .indexError
  | t0 :: rest => do
    let isLabelLine ←
      if tokEndsColon t0 then Except.ok true
      else if rest = [] then
        if defsSeen then Except.ok (isNumStr t0)
        else Except.error Err.nameError
      else Except.ok false
    let cs ←
      if isLabelLine then do
        let lbl := if tokEndsColon t0 then dropLastChar t0 else t0
        if ¬ defsSeen then Except.error Err.nameError
        else do
          let l ← ctx.curL
          let ctx ←
            if isNumStr lbl then do
              let l' ← numLabelDef l (parseDecNat lbl)
              Except.ok (ctx.setL l')
            else do
              let ctx2 := if (dget l.labels lbl).isSome then
                  ctx.addDiag (.labelReuse lbl)
                else ctx
              Except.ok (ctx2.setL
                { l with labels := dinsert lbl l.offset l.labels })
          Except.ok (ctx, rest)
      else Except.ok (ctx, t0 :: rest)
    let ctx := cs.1
    if cs.2 = [] then .ok (ctx, defsSeen)
    else do
      let (ctx, s) ← substAll ctx cs.2
      let r ← dispatch ctx s
      match r with
      | .done ctx => .ok (ctx, true)
      | .instr ctx cmd addr value => do
        let ctx ← emitCode ctx given cmd addr value
        .ok (ctx, true)

/-- interpreter loop state: the context, the previous line's indent,
and the local-defs flag. -/
structure IState where
  ctx : Context
  old_indent : Option Nat
  defsSeen : Bool
  deriving DecidableEq, Repr

/-- one full iteration of the line loop: indent handling (push a level
on program start; on an increase assert the previous line was a call
and push; on a decrease pop), reset `is_call`, then token processing. -/
def processLine (st : IState) (ln : SrcLine) : Except Err IState := do
  let ctx := st.ctx
  let ctx ←
    match st.old_indent with
    | none => Except.ok (ctx.pushLevel ln.indent)
    | some old =>
      if ln.indent = old then Except.ok ctx
      else if old < ln.indent then
        if ctx.is_call then Except.ok (ctx.pushLevel ln.indent)
        else Except.error Err.assertionError
      else popUntil ctx ln.indent
  let ctx := { ctx with is_call := false }
  let r ← processToks ctx st.defsSeen ln.given ln.toks
  .ok { ctx := r.1, old_indent := some ln.indent, defsSeen := r.2 }

def runLines (st : IState) : List SrcLine → Except Err IState
  | [] => .ok st
  | ln :: rest => do
    let st ← processLine st ln
    runLines st rest

/-- `def interpret(self, text)` over pre-lexed lines, including the
final `self.pop_until(self.levels[0].indent)` and `self.flush_exe()`. -/
def Context.interpret (ctx : Context) (lines : List SrcLine) :
    Except Err Context := do
  let st ← runLines { ctx := ctx, old_indent := none, defsSeen := false } lines
  let ind ← match st.ctx.levels.getLast? with
    | some l0 => Except.ok l0.indent
    | none => Except.error Err.indexError
  let ctx ← popUntil st.ctx ind
  flush_exe ctx

/-! ### Serialization (`__repr__` / `str`) -/

/-- Python `hex(i)` (lower-case, with sign on negatives). -/
def pyHex (i : Int) : String :=
  if i < 0 then "-0x" ++ String.mk (Nat.toDigits 16 (-i).toNat)
  else "0x" ++ String.mk (Nat.toDigits 16 i.toNat)

def joinSp (xs : List String) : String := String.intercalate " " xs

/-- `Alloc.__repr__`. -/
def Alloc.reprS (a : Alloc) : String :=
  "buffer " ++ toString a.id ++ " " ++ toString a.size ++ " " ++
    pyHex a.flags ++ " " ++ joinSp (a.buffer.map pyHex)

/-- `Level.__repr__` (the flags are the literal 0x200f). -/
def Level.reprS (l : Level) : String :=
  "buffer " ++ toString l.id ++ " " ++ toString l.offset ++ " 0x200f " ++
    joinSp (l.buffer.map pyHex)

/-- `def fmt_reloc(r, name="reloc")`. -/
def fmt_reloc (nm : String) (r : Reloc) : String :=
  nm ++ " " ++ toString r.dst ++ "+" ++ toString r.offset ++ " " ++
    toString r.src ++ "+" ++ toString r.src_offset

def pyValStr : PyVal → String
  | .s v => v
  | .i v => toString v

/-- `def fmt_exe(e)`. -/
def fmt_exe (e : List PyVal) : String := joinSp (e.map pyValStr)

/-- `Context.__repr__`: allocs in dict order, completed levels,
relocations, split relocations, execution script, newline-joined. -/
def Context.reprS (c : Context) : String :=
  String.intercalate "\n"
    ((c.allocs.map (fun p => p.2.reprS)) ++ (c.completed.map Level.reprS) ++
      (c.reloc.map (fmt_reloc "reloc")) ++
      (c.reloc_split.map (fmt_reloc "relsplit")) ++ (c.exe.map fmt_exe))

/-- module-level `def interpret(text)` (lines 1754-1761): a fresh
`Context` is built per run but the `Buffer.id` class counter is global
and never reset; it is threaded explicitly as `bufferId`. -/
def interpret_ctx (bufferId : Nat) (sh : List (String × List Int))
    (mem : List (String × MemIn)) (dsc : List (String × List DescW))
    (text : List SrcLine) : Except Err Context := do
  let c := Context.new bufferId
  let c := add_shaders c sh
  let c := add_memory c mem
  let c ← add_descriptors c dsc
  Context.interpret c text

/-- like `interpret_ctx` but returning the serialized output `str(c)`
together with the `Buffer.id` counter a subsequent run would start
from. -/
def interpret_full (bufferId : Nat) (sh : List (String × List Int))
    (mem : List (String × MemIn)) (dsc : List (String × List DescW))
    (text : List SrcLine) : Except Err (String × Nat) := do
  let c ← interpret_ctx bufferId sh mem dsc text
  .ok (c.reprS, c.nextId)


/-! ### Concrete inputs and auxiliary definitions used by the claim
theorems below -/

def mkLn (indent : Nat) (toks : List String) : SrcLine :=
  { indent := indent, toks := toks }

/-- a numeric label at byte offset 8 and a backward branch to it at
byte offset 16. -/
def progC1 : List SrcLine :=
  [mkLn 0 ["slot", "6"], mkLn 0 ["1:"], mkLn 0 ["nop"], mkLn 0 ["b", "1b"]]

/-- a one-line program: `slot 6`. -/
def progC2 : List SrcLine := [mkLn 0 ["slot", "6"]]

/-- a nested scope holding a pending symbolic forward reference that is
defined inside the scope (`b foo` before `foo:`), closed by a dedent. -/
def progC3a : List SrcLine :=
  [mkLn 0 ["mov", "x10", "#0x0"], mkLn 0 ["mov", "w20", "#0x0"],
   mkLn 0 ["call", "w20", "x10"],
   mkLn 2 ["b", "foo"], mkLn 2 ["nop"], mkLn 2 ["foo:", "nop"],
   mkLn 0 ["nop"]]

/-- a nested scope branching to a label that is never defined. -/
def progC3b : List SrcLine :=
  [mkLn 0 ["mov", "x10", "#0x0"], mkLn 0 ["mov", "w20", "#0x0"],
   mkLn 0 ["call", "w20", "x10"],
   mkLn 2 ["b", "bar"], mkLn 2 ["nop"], mkLn 2 ["nop"],
   mkLn 0 ["nop"]]

/-- a call followed by a three-word (24-byte) nested scope. -/
def progC4 : List SrcLine :=
  [mkLn 0 ["mov", "x10", "#0x0"], mkLn 0 ["mov", "w20", "#0x0"],
   mkLn 0 ["call", "w20", "x10"],
   mkLn 2 ["nop"], mkLn 2 ["nop"], mkLn 2 ["nop"],
   mkLn 0 ["nop"]]

/-- a single line with an unknown mnemonic. -/
def progC5 : List SrcLine := [mkLn 0 ["frobnicate", "x1"]]

/-- two calls to the same registers; the second call's two preceding
words are plain nops carrying no bookkeeping tags. -/
def progC6 : List SrcLine :=
  [mkLn 0 ["mov", "x10", "#0x0"], mkLn 0 ["mov", "w20", "#0x0"],
   mkLn 0 ["call", "w20", "x10"],
   mkLn 0 ["nop"], mkLn 0 ["nop"],
   mkLn 0 ["call", "w20", "x10"]]

/-- a `slot 6` line carrying the all-zero expected-word prefix
`0000000000000000 `. -/
def lnC9 : SrcLine := { indent := 0, given := some 0, toks := ["slot", "6"] }

/-- the pure effect of one iteration of the call-site scan on the
bookkeeping offsets. -/
def scanUpd (l : Level) (target num ofs w : Int) : Level :=
  let l1 := if pyShr w 48 = 0x100 + target then
      { l with call_addr_offset := some ofs } else l
  if pyShr w 48 = 0x200 + num then
      { l1 with call_len_offset := some ofs } else l1

def ctxC3w : Context :=
  { nextId := 9, levels := [{ id := 1, indent := 0 }],
    completed := [{ id := 0, indent := 0 }] }

def lvlC3w0 : Level := { id := 0, indent := 0 }

def lvlC3w : Level :=
  { id := 5, indent := 0, buffer := [0], label_refs := [(.sym "q", 0)] }

def lvlC6w : Level :=
  { id := 3, indent := 0,
    buffer := [0x110000000000000, 0x220000000000000] }

def lvlC7a : Level := { id := 0, indent := 0 }

def lvlC7b : Level :=
  { id := 0, indent := 0, buffer := [0, 0], num_labels := [(1, 8)] }

def lvlC7c : Level :=
  { id := 0, indent := 0, buffer := [0x1600000060000000],
    num_refs := [(1, [(.num 1, 0)])] }

def ctxC8w : Context :=
  { nextId := 2, levels := [{ id := 1, indent := 0 }],
    allocs := [("m", { id := 0, size := 16 })] }

def ctxC8w2 : Context :=
  { nextId := 2, levels := [{ id := 1, indent := 0 }],
    allocs := [("m", { id := 0, size := 16 })], reloc := [⟨0, 8, 0, 0⟩] }

def ctxC9w : Context := { nextId := 1, levels := [{ id := 0, indent := 0 }] }

def ctxC10w : Context := Context.new 0

/-- the context produced by `add_descriptors` on the three-literal
(odd-entry) descriptor below. -/
def ctxC10w2 : Context :=
  { nextId := 1,
    allocs := [("d", { id := 0, size := 8, buffer := [pyOr 1 (pyShl 2 32)] })] }

/-! ### General lemmas -/

theorem exceptBind_ok {α β : Type} {x : Except Err α} {f : α → Except Err β}
    {c : β} (h : x >>= f = .ok c) : ∃ a, x = .ok a ∧ f a = .ok c := by
  cases x with
  | ok a => exact ⟨a, rfl, h⟩
  | error e => exact absurd h (by simp [Bind.bind, Except.bind])

theorem callScanStep_eq (l : Level) (target num ofs w : Int)
    (h : pyListGet l.buffer ofs = .ok w) :
    callScanStep l target num ofs = .ok (scanUpd l target num ofs w) := by
  unfold callScanStep scanUpd
  rw [h]
  rfl

theorem scanUpd_buffer (l : Level) (target num ofs w : Int) :
    (scanUpd l target num ofs w).buffer = l.buffer := by
  unfold scanUpd
  by_cases c1 : pyShr w 48 = 0x100 + target <;>
  by_cases c2 : pyShr w 48 = 0x200 + num <;>
    first
    | (simp [c1, c2]; done)
    | (simp [c1, c2]; split <;> simp [*])

theorem scanUpd_addr (l : Level) (target num ofs w : Int) :
    (scanUpd l target num ofs w).call_addr_offset =
      if pyShr w 48 = 0x100 + target then some ofs
      else l.call_addr_offset := by
  unfold scanUpd
  by_cases c1 : pyShr w 48 = 0x100 + target <;>
  by_cases c2 : pyShr w 48 = 0x200 + num <;>
    first
    | (simp [c1, c2]; done)
    | (simp [c1, c2]; split <;> simp [*])

theorem scanUpd_len (l : Level) (target num ofs w : Int) :
    (scanUpd l target num ofs w).call_len_offset =
      if pyShr w 48 = 0x200 + num then some ofs
      else l.call_len_offset := by
  unfold scanUpd
  by_cases c1 : pyShr w 48 = 0x100 + target <;>
  by_cases c2 : pyShr w 48 = 0x200 + num <;>
    first
    | (simp [c1, c2]; done)
    | (simp [c1, c2]; split <;> simp [*])

theorem dget_dinsert {κ α : Type} [DecidableEq κ] (d : List (κ × α))
    (k : κ) (v : α) : dget (dinsert k v d) k = some v := by
  induction d with
  | nil => simp [dget, dinsert]
  | cons p rest ih =>
    by_cases hk : p.1 = k
    · simp [dinsert, hk, dget]
    · simp [dinsert, hk, dget, ih]

theorem dget_ddel {κ α : Type} [DecidableEq κ] (d : List (κ × α)) (k : κ) :
    dget (ddel k d) k = none := by
  induction d with
  | nil => simp [dget, ddel]
  | cons p rest ih =>
    by_cases hk : p.1 = k
    · simpa [ddel, hk] using ih
    · simpa [ddel, hk, dget] using ih

theorem pyPairPack_len : ∀ bs : List Int,
    (pyPairPack bs).length = bs.length / 2
  | [] => by simp [pyPairPack]
  | [_] => by simp [pyPairPack]
  | x :: y :: rest => by
    unfold pyPairPack
    simp only [List.length_cons, pyPairPack_len rest]
    omega

theorem pyPairPack_drop_odd : ∀ (bs : List Int) (x : Int),
    bs.length % 2 = 0 → pyPairPack (bs ++ [x]) = pyPairPack bs
  | [], _, _ => by simp [pyPairPack]
  | [_], _, h => by simp at h
  | a :: b :: rest, x, h => by
    unfold pyPairPack
    simp only [List.cons_append]
    rw [pyPairPack_drop_odd rest x
      (by simp only [List.length_cons] at h; omega)]

theorem descLoop_buflen (ws : List DescW) :
    ∀ (ctx : Context) (aId : Nat) (buf : List Int) (out : Context × List Int),
      descLoop ctx aId buf ws = .ok out →
      out.2.length = buf.length + desc32count ws := by
  induction ws with
  | nil =>
    intro ctx aId buf out h
    obtain rfl : out = (ctx, buf) := by
      unfold descLoop at h
      simpa using h.symm
    simp [desc32count]
  | cons w ws ih =>
    intro ctx aId buf out h
    match w with
    | .lit xx =>
      unfold descLoop at h
      have hl := ih _ _ _ _ h
      simp only [List.length_append, List.length_cons, List.length_nil] at hl
      simp only [desc32count]
      omega
    | .nameRef s =>
      unfold descLoop at h
      match hg : dget ctx.allocs s with
      | none => rw [hg] at h; exact absurd h (by simp)
      | some refA =>
        rw [hg] at h
        dsimp only at h
        have hl := ih _ _ _ _ h
        simp only [List.length_append, List.length_cons, List.length_nil] at hl
        simp only [desc32count]
        omega
    | .offRef s o =>
      unfold descLoop at h
      match hg : dget ctx.allocs s with
      | none => rw [hg] at h; exact absurd h (by simp)
      | some refA =>
        rw [hg] at h
        dsimp only at h
        have hl := ih _ _ _ _ h
        simp only [List.length_append, List.length_cons, List.length_nil] at hl
        simp only [desc32count]
        omega

/-! ### The claims -/

/-- C1: for every branch to a label the stored displacement is
`resolve_rel` = (target − source)/8 − 1 masked to 16 bits by
`to_int16` — demonstrated end to end on `progC1`, whose backward
branch at byte offset 16 to the label at 8 stores
0xfffe = to_int16 (−2) in its low 16 bits; the claim requires
distance 32768 to be fatal
(RangeError), but the range assert in the source reads
`assert(value < 36768)`, so 32768 — e.g. a branch at offset 0 to a
label at byte offset 262152 — is accepted and stored as 0x8000 (which
a signed 16-bit decode reads back as −32768), while 32767 succeeds
and 36768 and −32769 are rejected.  This contradicts the function's
own name and intent (int16); the bound is a typo for 32768. -/
theorem C1_range_check_accepts_32768 :
    (∀ tgt branch : Int, resolve_rel tgt branch = (tgt - branch).fdiv 8 - 1) ∧
    (interpret_ctx 0 [] [] [] progC1).map
      (fun c => c.completed.map (fun l => l.buffer)) =
      .ok [[0x1700000000000006, 0, 0x160000006000fffe]] ∧
    to_int16 (resolve_rel 8 16) = .ok 0xfffe ∧
    to_int16 32767 = .ok 32767 ∧
    to_int16 32768 = .ok 32768 ∧
    to_int16 (resolve_rel 262152 0) = .ok 32768 ∧
    to_int16 36768 = .error .assertionError ∧
    to_int16 (-32768) = .ok 32768 ∧
    to_int16 (-32769) = .error .assertionError := by
  refine ⟨fun tgt branch => rfl, rfl, ?_, ?_, ?_, ?_, ?_, ?_, ?_⟩ <;> decide

/-- C2 counterexample: assembling the same one-line program twice in
one process is NOT byte-identical: the `Buffer.id` class counter
persists across `interpret` calls, so the first run serializes
"buffer 0 ..." and leaves the counter at 2, and the immediately
following identical run serializes "buffer 2 ...". -/
theorem C2_cex :
    interpret_full 0 [] [] [] progC2 =
      .ok ("buffer 0 8 0x200f 0x1700000000000006", 2) ∧
    interpret_full 2 [] [] [] progC2 =
      .ok ("buffer 2 8 0x200f 0x1700000000000006", 4) ∧
    ("buffer 0 8 0x200f 0x1700000000000006" : String) ≠
      "buffer 2 8 0x200f 0x1700000000000006" := by
  refine ⟨rfl, rfl, by decide⟩

/-- C2 amended: assembly is deterministic as a function of the input
tables, the program text, and the global buffer-id counter: two runs
started from equal counter values produce identical serialized output
and equal final counters. -/
theorem C2_deterministic (c₁ c₂ : Nat) (sh : List (String × List Int))
    (mem : List (String × MemIn)) (dsc : List (String × List DescW))
    (text : List SrcLine) (h : c₁ = c₂) :
    interpret_full c₁ sh mem dsc text = interpret_full c₂ sh mem dsc text := by
  rw [h]

/-- C2 witness. -/
theorem C2_deterministic_witness :
    interpret_full 0 [] [] [] progC2 = interpret_full 0 [] [] [] progC2 :=
  C2_deterministic 0 0 [] [] [] progC2 rfl

/-- C3 counterexample: in `progC3a` the nested Level popped at the
dedent still carries its pending symbolic reference (foo, 0) in
`label_refs` even though `foo` is in its label table at 16, and its
branch word keeps displacement 0 where finalization would have
patched 1; in `progC3b` the popped Level's reference to the undefined
label `bar` is not fatal — the run succeeds. -/
theorem C3_cex :
    (interpret_ctx 0 [] [] [] progC3a).map
      (fun c => c.completed.map (fun l => (l.id, l.buffer, l.labels, l.label_refs))) =
    .ok [(1, [0x1600000060000000, 0, 0], [("foo", 16)], [(RefKey.sym "foo", 0)]),
         (0, [0x110000000000000, 0x220000000000018, 0x2000102000000000, 0],
          [], [])] ∧
    to_int16 (resolve_rel 16 0) = .ok 1 ∧
    (0x1600000060000000 : Int) ≠ 0x1600000060000001 ∧
    (interpret_ctx 0 [] [] [] progC3b).map
      (fun c => c.completed.map (fun l => l.label_refs)) =
    .ok [[(RefKey.sym "bar", 0)], []] := by
  refine ⟨rfl, by decide, by decide, rfl⟩

/-- C3 amended: `pop_until` moves popped Levels to the completed set
WITHOUT finalizing them — every completed Level it produces has the
`label_refs` and `labels` of a Level that was on the stack, untouched
— and only `flush_exe` finalizes (the root Level), where a pending
symbolic reference that is missing from the label table is fatal
(KeyError). -/
theorem C3_pop_does_not_finalize :
    (∀ (i fuel : Nat) (ctx ctx' : Context), popUntilF i fuel ctx = .ok ctx' →
       ∀ l ∈ ctx'.completed, l ∈ ctx.completed ∨
         ∃ l₀ ∈ ctx.levels, l.label_refs = l₀.label_refs ∧
           l.labels = l₀.labels ∧ l.id = l₀.id) ∧
    (∀ (l : Level) (r : String) (off : Nat) (rest : List (RefKey × Nat)),
       l.label_refs = (.sym r, off) :: rest → dget l.labels r = none →
       l.finish = .error .keyError) := by
  constructor
  · intro i fuel
    induction fuel with
    | zero =>
      intro ctx ctx' h l hl
      unfold popUntilF at h
      match hL : ctx.levels with
      | [] => rw [hL] at h; exact absurd h (by simp)
      | l0 :: rest =>
        rw [hL] at h
        dsimp only at h
        by_cases hi : l0.indent = i
        · rw [if_pos hi] at h
          obtain rfl : ctx = ctx' := by simpa using h
          exact Or.inl hl
        · rw [if_neg hi] at h
          exact absurd h (by simp)
    | succ n ih =>
      intro ctx ctx' h l hl
      unfold popUntilF at h
      match hL : ctx.levels with
      | [] => rw [hL] at h; exact absurd h (by simp)
      | [l0] =>
        rw [hL] at h
        dsimp only at h
        by_cases hi : l0.indent = i
        · rw [if_pos hi] at h
          obtain rfl : ctx = ctx' := by simpa using h
          exact Or.inl hl
        · rw [if_neg hi] at h
          have hC : ctx' = { ctx with levels := [], completed := ctx.completed ++ [l0] } := by
            simpa using h.symm
          subst hC
          rcases List.mem_append.mp hl with hmem | hmem
          · exact Or.inl hmem
          · obtain rfl : l = l0 := by simpa using hmem
            exact Or.inr ⟨l, by simp [hL], rfl, rfl, rfl⟩
      | l0 :: r :: rest' =>
        rw [hL] at h
        dsimp only at h
        by_cases hi : l0.indent = i
        · rw [if_pos hi] at h
          obtain rfl : ctx = ctx' := by simpa using h
          exact Or.inl hl
        · rw [if_neg hi] at h
          rcases hA : r.call_addr_offset with _ | a <;> rw [hA] at h <;>
            dsimp only at h
          · simp [Bind.bind, Except.bind] at h
          rcases hB : r.call_len_offset with _ | b <;> rw [hB] at h <;>
            dsimp only at h
          · simp [Bind.bind, Except.bind] at h
          obtain ⟨a', ha', h⟩ := exceptBind_ok h
          obtain ⟨b', hb', h⟩ := exceptBind_ok h
          obtain ⟨oldLen, hOL, h⟩ := exceptBind_ok h
          obtain ⟨buf1, hB1, h⟩ := exceptBind_ok h
          obtain ⟨oldAddr, hOA, h⟩ := exceptBind_ok h
          obtain ⟨buf2, hB2, h⟩ := exceptBind_ok h
          have hres := ih _ _ h l hl
          rcases hres with hmem | ⟨l₀, hmem, h1, h2, h3⟩
          · rcases List.mem_append.mp hmem with hmem | hmem
            · exact Or.inl hmem
            · obtain rfl : l = l0 := by simpa using hmem
              exact Or.inr ⟨l, by simp [hL], rfl, rfl, rfl⟩
          · rcases List.mem_cons.mp hmem with rfl | hmem
            · exact Or.inr ⟨r, by simp [hL], h1, h2, h3⟩
            · exact Or.inr ⟨l₀, by simp [hL, hmem], h1, h2, h3⟩
  · intro l r off rest href hget
    unfold Level.finish
    rw [href]
    unfold Level.process_relocs
    dsimp only
    rw [hget]
    rfl

/-- C3 witness. -/
theorem C3_pop_does_not_finalize_witness :
    (lvlC3w0 ∈ ctxC3w.completed ∨
      ∃ l₀ ∈ ctxC3w.levels, lvlC3w0.label_refs = l₀.label_refs ∧
        lvlC3w0.labels = l₀.labels ∧ lvlC3w0.id = l₀.id) ∧
    lvlC3w.finish = .error .keyError :=
  ⟨C3_pop_does_not_finalize.1 0 1 ctxC3w ctxC3w rfl lvlC3w0 (by decide),
   C3_pop_does_not_finalize.2 lvlC3w "q" 0 [] rfl rfl⟩

/-- C4 counterexample: after the 3-word nested scope of `progC4`
closes, the parent's callee-id word is 0x0110000000000000 — its low
48 bits are 0, not the child buffer's id 1; the id is carried only by
the recorded relocation (0, 0) → (1, 0). -/
theorem C4_cex :
    (interpret_ctx 0 [] [] [] progC4).map
      (fun c => (c.completed.map (fun l => (l.id, l.buffer)), c.reloc)) =
    .ok ([(1, [0, 0, 0]),
          (0, [0x110000000000000, 0x220000000000018, 0x2000102000000000, 0])],
         [⟨0, 0, 1, 0⟩]) ∧
    pyAnd 0x110000000000000 0xffffffffffff = 0 ∧ (0 : Int) ≠ 1 := by
  refine ⟨by decide, by decide, by decide⟩

/-- C4 amended: on scope close the parent's length word's low bits
hold the child's byte length (24 for the 3-word child), the parent's
callee-id word has its low 48 bits cleared to zero (the child's id is
NOT written into the word), and a full-address relocation from the
parent's callee-id word (byte offset 0) to the child buffer at offset
0 is recorded, which is what later conveys the child's identity. -/
theorem C4_call_linking :
    (interpret_ctx 0 [] [] [] progC4).map
      (fun c => (c.completed.map (fun l => (l.id, l.buffer)), c.reloc)) =
    .ok ([(1, [0, 0, 0]),
          (0, [0x110000000000000, 0x220000000000018, 0x2000102000000000, 0])],
         [⟨0, 0, 1, 0⟩]) ∧
    pyAnd 0x220000000000018 0xffffffffffff = 24 ∧
    pyAnd 0x110000000000000 0xffffffffffff = 0 := by
  refine ⟨by decide, by decide, by decide⟩

/-- C5: an unknown mnemonic does NOT abort the run: the interpreter
prints an "Unknown command" diagnostic, encodes the line as a zero
word, and produces complete serialized output ("buffer 0 8 0x200f
0x0").  The fallback is marked "# TODO remove" in the source; the
other error kinds (failed asserts, missing keys) do abort. -/
theorem C5_unknown_mnemonic_not_fatal :
    (interpret_ctx 0 [] [] [] progC5).map
      (fun c => (c.diags, c.completed.map (fun l => l.buffer), c.reprS)) =
    .ok ([.unknownCommand ["frobnicate", "x1"]], [[0]],
      "buffer 0 8 0x200f 0x0") := by
  decide

/-- C6 counterexample: in `progC6` the second call is preceded by two
plain nop words (values 0, carrying neither the callee-id tag 0x110
nor the count tag 0x220), yet assembly succeeds with no diagnostics,
because the Level's bookkeeping offsets still hold the stale values
set by the first call. -/
theorem C6_cex :
    (interpret_ctx 0 [] [] [] progC6).map
      (fun c => (c.completed.map (fun l => l.buffer), c.diags)) =
    .ok ([[0x110000000000000, 0x220000000000000, 0x2000102000000000,
           0, 0, 0x2000102000000000]], []) ∧
    pyShr 0 48 ≠ 0x100 + 0x10 ∧ pyShr 0 48 ≠ 0x200 + 0x20 := by
  refine ⟨by decide, by decide, by decide⟩

/-- C6 amended: only when the Level's bookkeeping offsets are both
None (the state before the first call, or after a scope close
consumed them) does the call succeed precisely when, among the two
previously emitted words, some word carries the callee-id tag
(top 16 bits = 0x100 + target) and some word carries the
argument-count tag (0x200 + num); the two tags are distinct for
register indices below 0x100, so each is then carried by exactly one
of the two words. -/
theorem C6_first_call_scan (l : Level) (target num w1 w2 : Int)
    (h0 : l.call_addr_offset = none) (h1 : l.call_len_offset = none)
    (hg1 : pyListGet l.buffer ((l.buffer.length : Int) - 2) = .ok w1)
    (hg2 : pyListGet l.buffer ((l.buffer.length : Int) - 1) = .ok w2) :
    (∃ l', callScan l target num = .ok l') ↔
      ((pyShr w1 48 = 0x100 + target ∨ pyShr w2 48 = 0x100 + target) ∧
       (pyShr w1 48 = 0x200 + num ∨ pyShr w2 48 = 0x200 + num)) := by
  have e1 := callScanStep_eq l target num ((l.buffer.length : Int) - 2) w1 hg1
  have hg2' : pyListGet
      (scanUpd l target num ((l.buffer.length : Int) - 2) w1).buffer
      ((l.buffer.length : Int) - 1) = .ok w2 := by
    rw [scanUpd_buffer]; exact hg2
  have e2 := callScanStep_eq _ target num ((l.buffer.length : Int) - 1) w2 hg2'
  have haddr : (scanUpd (scanUpd l target num ((l.buffer.length : Int) - 2) w1)
      target num ((l.buffer.length : Int) - 1) w2).call_addr_offset = none ↔
      ¬(pyShr w1 48 = 0x100 + target ∨ pyShr w2 48 = 0x100 + target) := by
    rw [scanUpd_addr, scanUpd_addr, h0]
    by_cases c1 : pyShr w1 48 = 0x100 + target <;>
    by_cases c2 : pyShr w2 48 = 0x100 + target <;> simp [c1, c2]
  have hlen : (scanUpd (scanUpd l target num ((l.buffer.length : Int) - 2) w1)
      target num ((l.buffer.length : Int) - 1) w2).call_len_offset = none ↔
      ¬(pyShr w1 48 = 0x200 + num ∨ pyShr w2 48 = 0x200 + num) := by
    rw [scanUpd_len, scanUpd_len, h1]
    by_cases c1 : pyShr w1 48 = 0x200 + num <;>
    by_cases c2 : pyShr w2 48 = 0x200 + num <;> simp [c1, c2]
  rw [show callScan l target num =
      (Except.bind (callScanStep l target num ((l.buffer.length : Int) - 2))
        fun l1 =>
          Except.bind (callScanStep l1 target num ((l.buffer.length : Int) - 1))
            fun l2 =>
              if l2.call_addr_offset = none then Except.error Err.assertionError
              else if l2.call_len_offset = none then
                Except.error Err.assertionError
              else Except.ok l2) from rfl]
  simp only [e1, e2, Except.bind]
  by_cases hA : (pyShr w1 48 = 0x100 + target ∨ pyShr w2 48 = 0x100 + target) <;>
  by_cases hB : (pyShr w1 48 = 0x200 + num ∨ pyShr w2 48 = 0x200 + num) <;>
    simp [haddr, hlen, hA, hB]

/-- C6 witness. -/
theorem C6_first_call_scan_witness :
    (∃ l', callScan lvlC6w 0x10 0x20 = .ok l') ↔
      ((pyShr 0x110000000000000 48 = 0x100 + 0x10 ∨
        pyShr 0x220000000000000 48 = 0x100 + 0x10) ∧
       (pyShr 0x110000000000000 48 = 0x200 + 0x20 ∨
        pyShr 0x220000000000000 48 = 0x200 + 0x20)) :=
  C6_first_call_scan lvlC6w 0x10 0x20 0x110000000000000 0x220000000000000
    rfl rfl (by decide) (by decide)

/-- C7: numeric labels are rebindable with nearest-definition
resolution: a backward reference `Nb` is fatal unless N has a live
binding and otherwise resolves immediately against the most recent
binding; a forward reference `Nf` appends to the per-number pending
list; defining N resolves all pending references for N at the
definition offset, deletes the pending entry (so the lookup is
cleared), and (re)binds N to the current offset; a dict insert makes
the newest binding the one found. -/
theorem C7_numeric_label_rules :
    (∀ (l : Level) (lbl : String) (n : Nat), matchNumSuffix 'b' lbl = some n →
       dget l.num_labels n = none → branchLabel l lbl = .error .assertionError) ∧
    (∀ (l : Level) (lbl : String) (n g : Nat), matchNumSuffix 'b' lbl = some n →
       dget l.num_labels n = some g →
       branchLabel l lbl = .ok (l, resolve_rel (g : Int) (l.offset : Int))) ∧
    (∀ (l : Level) (lbl : String) (n : Nat), matchNumSuffix 'b' lbl = none →
       matchNumSuffix 'f' lbl = some n →
       branchLabel l lbl =
         .ok ({ l with num_refs := dinsert n ((dget l.num_refs n).getD [] ++ [(.num n, l.offset)]) l.num_refs }, 0)) ∧
    (∀ (l : Level) (n : Nat), dget l.num_refs n = none →
       numLabelDef l n =
         .ok { l with num_labels := dinsert n l.offset l.num_labels }) ∧
    (∀ (l l₁ : Level) (n : Nat) (refs : List (RefKey × Nat)),
       dget l.num_refs n = some refs →
       l.process_relocs refs (some l.offset) = .ok l₁ →
       numLabelDef l n = .ok { l₁ with
         num_refs := ddel n l₁.num_refs
         num_labels := dinsert n l₁.offset l₁.num_labels }) ∧
    (∀ (d : List (Nat × List (RefKey × Nat))) (n : Nat),
       dget (ddel n d) n = none) ∧
    (∀ (d : List (Nat × Nat)) (n v : Nat), dget (dinsert n v d) n = some v) := by
  refine ⟨?_, ?_, ?_, ?_, ?_, fun d n => dget_ddel d n, fun d n v => dget_dinsert d n v⟩
  · intro l lbl n hb hget
    unfold branchLabel
    rw [hb]
    dsimp only
    rw [hget]
  · intro l lbl n g hb hget
    unfold branchLabel
    rw [hb]
    dsimp only
    rw [hget]
  · intro l lbl n hb hf
    unfold branchLabel
    rw [hb]
    dsimp only
    rw [hf]
  · intro l n hget
    unfold numLabelDef
    rw [hget]
    rfl
  · intro l l₁ n refs hget hproc
    unfold numLabelDef
    rw [hget]
    dsimp only
    rw [hproc]
    rfl

/-- C7 witness. -/
theorem C7_numeric_label_rules_witness :
    branchLabel lvlC7a "1b" = .error .assertionError ∧
    branchLabel lvlC7b "1b" = .ok (lvlC7b, resolve_rel (8 : Int) (lvlC7b.offset : Int)) ∧
    branchLabel lvlC7a "2f" =
      .ok ({ lvlC7a with num_refs := dinsert 2 ((dget lvlC7a.num_refs 2).getD [] ++ [(.num 2, lvlC7a.offset)]) lvlC7a.num_refs }, 0) ∧
    numLabelDef lvlC7a 1 =
      .ok { lvlC7a with num_labels := dinsert 1 lvlC7a.offset lvlC7a.num_labels } ∧
    numLabelDef lvlC7c 1 = .ok { lvlC7c with
      num_refs := ddel 1 lvlC7c.num_refs
      num_labels := dinsert 1 lvlC7c.offset lvlC7c.num_labels } ∧
    dget (ddel 1 lvlC7c.num_refs) 1 = none ∧
    dget (dinsert 3 16 lvlC7a.num_labels) 3 = some 16 :=
  ⟨C7_numeric_label_rules.1 lvlC7a "1b" 1 (by decide) rfl,
   C7_numeric_label_rules.2.1 lvlC7b "1b" 1 8 (by decide) rfl,
   C7_numeric_label_rules.2.2.1 lvlC7a "2f" 2 (by decide) (by decide),
   C7_numeric_label_rules.2.2.2.1 lvlC7a 1 rfl,
   C7_numeric_label_rules.2.2.2.2.1 lvlC7c lvlC7c 1 [(.num 1, 0)] rfl (by decide),
   C7_numeric_label_rules.2.2.2.2.2.1 lvlC7c.num_refs 1,
   C7_numeric_label_rules.2.2.2.2.2.2 lvlC7a.num_labels 3 16⟩

/-- C8 counterexample: a descriptor table whose buffer reference
follows one literal 32-bit entry yields the relocation record
(1, 4, 0, 0): its source word offset 4 = len(buf) * 4 is not a
multiple of 8. -/
theorem C8_cex :
    (add_descriptors (add_memory (Context.new 0) [("m", .bare 16)])
        [("d", [.lit 1, .nameRef "m"])]).map (fun c => c.reloc) =
      .ok [⟨1, 4, 0, 0⟩] ∧ ¬ ((8 : Int) ∣ 4) := by
  exact ⟨rfl, by decide⟩

/-- C8 amended: relocations produced from program text are 8-byte
aligned — the `$`-operand substitution sources them at the current
level offset (a multiple of 8) and scope closing sources them at
call_addr_offset * 8 — while descriptor-table relocations are sourced
at 4 times the number of preceding 32-bit entries, hence only 4-byte
aligned in general. -/
theorem C8_reloc_alignment :
    (∀ (ctx : Context) (b : Bool) (t : String) (out : Context × String),
       substTok ctx b t = .ok out →
       (∀ r ∈ out.1.reloc, r ∈ ctx.reloc ∨ (8 : Int) ∣ r.offset) ∧
       (∀ r ∈ out.1.reloc_split, r ∈ ctx.reloc_split ∨ (8 : Int) ∣ r.offset)) ∧
    (∀ (i fuel : Nat) (ctx ctx' : Context), popUntilF i fuel ctx = .ok ctx' →
       ∀ r ∈ ctx'.reloc, r ∈ ctx.reloc ∨ (8 : Int) ∣ r.offset) ∧
    (∀ (ctx : Context) (aId : Nat) (buf : List Int) (ws : List DescW)
       (out : Context × List Int), descLoop ctx aId buf ws = .ok out →
       ∀ r ∈ out.1.reloc, r ∈ ctx.reloc ∨ (4 : Int) ∣ r.offset) := by
  refine ⟨?_, ?_, ?_⟩
  · intro ctx b t out h
    unfold substTok at h
    by_cases hd : startsWithLit "$" t
    · rw [if_pos hd] at h
      obtain ⟨bid, hbid, h⟩ := exceptBind_ok h
      obtain ⟨off, hoff, h⟩ := exceptBind_ok h
      obtain ⟨l, hl, h⟩ := exceptBind_ok h
      cases b with
      | true =>
        dsimp only at h
        obtain rfl : out = ({ ctx with reloc_split := ctx.reloc_split ++
            [⟨l.id, (l.offset : Int), bid, off⟩] }, "#0x0") := by
          simpa using h.symm
        constructor
        · intro r hr
          exact Or.inl hr
        · intro r hr
          rcases List.mem_append.mp hr with hr | hr
          · exact Or.inl hr
          · obtain rfl : r = ⟨l.id, (l.offset : Int), bid, off⟩ := by
              simpa using hr
            exact Or.inr ⟨(l.buffer.length : Int),
              by unfold Level.offset; push_cast; ring⟩
      | false =>
        dsimp only at h
        obtain rfl : out = ({ ctx with reloc := ctx.reloc ++
            [⟨l.id, (l.offset : Int), bid, off⟩] }, "#0x0") := by
          simpa using h.symm
        constructor
        · intro r hr
          rcases List.mem_append.mp hr with hr | hr
          · exact Or.inl hr
          · obtain rfl : r = ⟨l.id, (l.offset : Int), bid, off⟩ := by
              simpa using hr
            exact Or.inr ⟨(l.buffer.length : Int),
              by unfold Level.offset; push_cast; ring⟩
        · intro r hr
          exact Or.inl hr
    · rw [if_neg hd] at h
      obtain rfl : out = (ctx, t) := by simpa using h.symm
      exact ⟨fun r hr => Or.inl hr, fun r hr => Or.inl hr⟩
  · intro i fuel
    induction fuel with
    | zero =>
      intro ctx ctx' h r hr
      unfold popUntilF at h
      match hL : ctx.levels with
      | [] => rw [hL] at h; exact absurd h (by simp)
      | l0 :: rest =>
        rw [hL] at h
        dsimp only at h
        by_cases hi : l0.indent = i
        · rw [if_pos hi] at h
          obtain rfl : ctx = ctx' := by simpa using h
          exact Or.inl hr
        · rw [if_neg hi] at h
          exact absurd h (by simp)
    | succ n ih =>
      intro ctx ctx' h r hr
      unfold popUntilF at h
      match hL : ctx.levels with
      | [] => rw [hL] at h; exact absurd h (by simp)
      | [l0] =>
        rw [hL] at h
        dsimp only at h
        by_cases hi : l0.indent = i
        · rw [if_pos hi] at h
          obtain rfl : ctx = ctx' := by simpa using h
          exact Or.inl hr
        · rw [if_neg hi] at h
          have hC : ctx' = { ctx with levels := [], completed := ctx.completed ++ [l0] } := by
            simpa using h.symm
          subst hC
          exact Or.inl hr
      | l0 :: rp :: rest' =>
        rw [hL] at h
        dsimp only at h
        by_cases hi : l0.indent = i
        · rw [if_pos hi] at h
          obtain rfl : ctx = ctx' := by simpa using h
          exact Or.inl hr
        · rw [if_neg hi] at h
          rcases hA : rp.call_addr_offset with _ | a <;> rw [hA] at h <;>
            dsimp only at h
          · simp [Bind.bind, Except.bind] at h
          rcases hB : rp.call_len_offset with _ | bb <;> rw [hB] at h <;>
            dsimp only at h
          · simp [Bind.bind, Except.bind] at h
          obtain ⟨a', ha', h⟩ := exceptBind_ok h
          obtain ⟨b', hb', h⟩ := exceptBind_ok h
          obtain ⟨oldLen, hOL, h⟩ := exceptBind_ok h
          obtain ⟨buf1, hB1, h⟩ := exceptBind_ok h
          obtain ⟨oldAddr, hOA, h⟩ := exceptBind_ok h
          obtain ⟨buf2, hB2, h⟩ := exceptBind_ok h
          have hres := ih _ _ h r hr
          rcases hres with hmem | hdvd
          · rcases List.mem_append.mp hmem with hmem | hmem
            · exact Or.inl hmem
            · obtain rfl : r = ⟨rp.id, a' * 8, l0.id, 0⟩ := by simpa using hmem
              exact Or.inr ⟨a', by ring⟩
          · exact Or.inr hdvd
  · intro ctx aId buf ws
    induction ws generalizing ctx buf with
    | nil =>
      intro out h r hr
      unfold descLoop at h
      obtain rfl : out = (ctx, buf) := by simpa using h.symm
      exact Or.inl hr
    | cons w ws ih =>
      intro out h r hr
      match w with
      | .lit x =>
        unfold descLoop at h
        exact ih _ _ _ h r hr
      | .nameRef s =>
        unfold descLoop at h
        match hg : dget ctx.allocs s with
        | none => rw [hg] at h; exact absurd h (by simp)
        | some refA =>
          rw [hg] at h
          dsimp only at h
          have hres := ih _ _ _ h r hr
          rcases hres with hmem | hdvd
          · rcases List.mem_append.mp hmem with hmem | hmem
            · exact Or.inl hmem
            · obtain rfl : r = ⟨aId, ((buf.length * 4 : Nat) : Int), refA.id, 0⟩ := by
                simpa using hmem
              exact Or.inr ⟨(buf.length : Int), by push_cast; ring⟩
          · exact Or.inr hdvd
      | .offRef s o =>
        unfold descLoop at h
        match hg : dget ctx.allocs s with
        | none => rw [hg] at h; exact absurd h (by simp)
        | some refA =>
          rw [hg] at h
          dsimp only at h
          have hres := ih _ _ _ h r hr
          rcases hres with hmem | hdvd
          · rcases List.mem_append.mp hmem with hmem | hmem
            · exact Or.inl hmem
            · obtain rfl : r = ⟨aId, ((buf.length * 4 : Nat) : Int), refA.id, o⟩ := by
                simpa using hmem
              exact Or.inr ⟨(buf.length : Int), by push_cast; ring⟩
          · exact Or.inr hdvd

/-- C8 witness. -/
theorem C8_reloc_alignment_witness :
    ((⟨1, 0, 0, 0⟩ : Reloc) ∈ ctxC8w.reloc ∨
      (8 : Int) ∣ (⟨1, 0, 0, 0⟩ : Reloc).offset) ∧
    ((⟨0, 8, 0, 0⟩ : Reloc) ∈ ctxC8w2.reloc ∨
      (8 : Int) ∣ (⟨0, 8, 0, 0⟩ : Reloc).offset) :=
  ⟨(C8_reloc_alignment.1 ctxC8w false "$m"
      ({ ctxC8w with reloc := [⟨1, 0, 0, 0⟩] }, "#0x0") (by decide)).1
      ⟨1, 0, 0, 0⟩ (by decide),
   C8_reloc_alignment.2.1 0 1 ctxC8w2 ctxC8w2 rfl ⟨0, 8, 0, 0⟩ (by decide)⟩

/-- C9 counterexample: a line carrying the literal annotation value 0
(sixteen zero hex digits) computes the word 0x1700000000000006 ≠ 0,
yet no mismatch is reported (the truthiness test `if given_code`
skips a zero prefix); the computed word is appended and assembly
succeeds. -/
theorem C9_cex :
    (interpret_ctx 0 [] [] [] [lnC9]).map
      (fun c => (c.diags, c.completed.map (fun l => l.buffer))) =
    .ok ([], [[0x1700000000000006]]) ∧ (0x1700000000000006 : Int) ≠ 0 := by
  exact ⟨rfl, by decide⟩

/-- C9 amended: the common emit step always appends the computed word
(never the expected one) and never fails; a mismatch is reported,
non-fatally, exactly when the line carries an expected-word prefix
that is nonzero and differs from the computed word — an absent prefix,
a zero prefix, or an equal prefix produce no report. -/
theorem C9_mismatch_only_when_truthy (ctx : Context) (given : Option Nat)
    (cmd addr value : Int) (l : Level) (ls : List Level)
    (h : ctx.levels = l :: ls) :
    ∃ ctx', emitCode ctx given cmd addr value = .ok ctx' ∧
      ctx'.levels =
        { l with buffer := l.buffer ++ [mkCode cmd addr value] } :: ls ∧
      (given = none → ctx'.diags = ctx.diags) ∧
      (given = some 0 → ctx'.diags = ctx.diags) ∧
      (∀ g : Nat, given = some g → mkCode cmd addr value = (g : Int) →
        ctx'.diags = ctx.diags) ∧
      (∀ g : Nat, given = some g → g ≠ 0 → mkCode cmd addr value ≠ (g : Int) →
        ctx'.diags = ctx.diags ++
          [.mismatch (mkCode cmd addr value) (g : Int)]) := by
  cases given with
  | none =>
    refine ⟨{ ctx with levels :=
        { l with buffer := l.buffer ++ [mkCode cmd addr value] } :: ls },
      ?_, rfl, ?_, ?_, ?_, ?_⟩
    · unfold emitCode Context.curL Context.setL
      dsimp only
      rw [h]
      rfl
    · intro
      rfl
    · intro hh
      exact nomatch hh
    · intro g hg
      exact nomatch hg
    · intro g hg
      exact nomatch hg
  | some g =>
    by_cases h0 : g = 0
    · subst h0
      refine ⟨{ ctx with levels :=
          { l with buffer := l.buffer ++ [mkCode cmd addr value] } :: ls },
        ?_, rfl, ?_, ?_, ?_, ?_⟩
      · unfold emitCode Context.curL Context.setL
        dsimp only
        rw [if_neg (by simp), h]
        rfl
      · intro hh
        exact nomatch hh
      · intro
        rfl
      · intro g' hg' hc
        rfl
      · intro g' hg' hg0 _
        cases hg'
        exact absurd rfl hg0
    · by_cases hne : mkCode cmd addr value = (g : Int)
      · refine ⟨{ ctx with levels :=
            { l with buffer := l.buffer ++ [mkCode cmd addr value] } :: ls },
          ?_, rfl, ?_, ?_, ?_, ?_⟩
        · unfold emitCode Context.curL Context.setL
          dsimp only
          rw [if_neg (by simp [hne]), h]
          rfl
        · intro hh
          exact nomatch hh
        · intro hh
          exact absurd (Option.some.inj hh) h0
        · intro g' hg' hc
          rfl
        · intro g' hg' _ hne'
          cases hg'
          exact absurd hne hne'
      · refine ⟨{ ctx with
            levels := { l with buffer := l.buffer ++ [mkCode cmd addr value] } :: ls
            diags := ctx.diags ++ [.mismatch (mkCode cmd addr value) (g : Int)] },
          ?_, rfl, ?_, ?_, ?_, ?_⟩
        · unfold emitCode Context.curL Context.setL Context.addDiag
          dsimp only
          rw [if_pos ⟨h0, hne⟩, h]
          rfl
        · intro hh
          exact nomatch hh
        · intro hh
          exact absurd (Option.some.inj hh) h0
        · intro g' hg' hc
          cases hg'
          exact absurd hc hne
        · intro g' hg' _ _
          cases hg'
          rfl

/-- C9 witness. -/
theorem C9_mismatch_only_when_truthy_witness :
    ∃ ctx', emitCode ctxC9w (some 0) 23 0 6 = .ok ctx' ∧
      ctx'.levels = { ({ id := 0, indent := 0 } : Level) with
        buffer := ([] : List Int) ++ [mkCode 23 0 6] } :: [] ∧
      (some 0 = none → ctx'.diags = ctxC9w.diags) ∧
      (some 0 = some 0 → ctx'.diags = ctxC9w.diags) ∧
      (∀ g : Nat, some 0 = some g → mkCode 23 0 6 = (g : Int) →
        ctx'.diags = ctxC9w.diags) ∧
      (∀ g : Nat, some 0 = some g → g ≠ 0 → mkCode 23 0 6 ≠ (g : Int) →
        ctx'.diags = ctxC9w.diags ++
          [.mismatch (mkCode 23 0 6) (g : Int)]) :=
  C9_mismatch_only_when_truthy ctxC9w (some 0) 23 0 6
    { id := 0, indent := 0 } [] rfl

/-- C10: `add_descriptors` packs the expanded 32-bit entry list
(literals one entry, references two) in pairs via `zip`, which drops
an unpaired final entry: the resulting Alloc holds
floor(entries/2) 64-bit words and its size is floor(entries/2) * 8
bytes, and packing a list with an odd trailing entry equals packing
the list without it. -/
theorem C10_descriptor_packing :
    (∀ (ctx : Context) (d : String) (ws : List DescW) (ctx' : Context),
       add_descriptors ctx [(d, ws)] = .ok ctx' →
       ∃ a, dget ctx'.allocs d = some a ∧
         a.buffer.length = desc32count ws / 2 ∧
         a.size = (((desc32count ws / 2) * 8 : Nat) : Int)) ∧
    (∀ (bs : List Int) (x : Int), bs.length % 2 = 0 →
       pyPairPack (bs ++ [x]) = pyPairPack bs) ∧
    (∀ bs : List Int, (pyPairPack bs).length = bs.length / 2) := by
  refine ⟨?_, fun bs x h => pyPairPack_drop_odd bs x h,
    fun bs => pyPairPack_len bs⟩
  intro ctx d ws ctx' h
  unfold add_descriptors at h
  obtain ⟨out, hout, h⟩ := exceptBind_ok h
  obtain ⟨octx, obuf⟩ := out
  dsimp only at h hout
  have hrec : ctx' = { octx with allocs := dinsert d (Alloc.mk ctx.nextId (((pyPairPack obuf).length * 8 : Nat) : Int) 0x280f (pyPairPack obuf)) octx.allocs } := by
    unfold add_descriptors at h
    simpa using h.symm
  subst hrec
  refine ⟨_, dget_dinsert _ _ _, ?_, ?_⟩
  · have hlen := descLoop_buflen ws _ _ _ _ hout
    simp only [List.length_nil, Nat.zero_add] at hlen
    simp [pyPairPack_len, hlen]
  · have hlen := descLoop_buflen ws _ _ _ _ hout
    simp only [List.length_nil, Nat.zero_add] at hlen
    simp [pyPairPack_len, hlen]

/-- C10 witness. -/
theorem C10_descriptor_packing_witness :
    (∃ a, dget ctxC10w2.allocs "d" = some a ∧
       a.buffer.length = desc32count [DescW.lit 1, .lit 2, .lit 3] / 2 ∧
       a.size = (((desc32count [DescW.lit 1, .lit 2, .lit 3] / 2) * 8 : Nat) : Int)) ∧
    pyPairPack ([1, 2] ++ [3]) = pyPairPack [1, 2] :=
  ⟨C10_descriptor_packing.1 ctxC10w "d" [.lit 1, .lit 2, .lit 3] ctxC10w2
      (by decide),
   C10_descriptor_packing.2.1 [1, 2] 3 rfl⟩

end CSF
